import Mathlib

/-!
Shallow embedding of the Go package `set` (generic set data structure with a
non-synchronized variant `set`, a synchronized variant `setm`, and a
hash-identity variant `setAny`, plus free set-algebra functions).

Modelling conventions:
* A Go `map[T]struct{}` is modelled as a `List T` of its keys; a Go
  `map[uint64]T` is modelled as an association list `List (Nat × T)`.
  Go's map iteration order is unspecified; the model fixes it to the list
  order, which is sound for the properties proved here (they hold for any
  fixed order).
* `delete(m, k)` on the key-set model removes the key: `List.filter (· ≠ k)`
  (identical to erasing the single occurrence on the duplicate-free states
  the package constructs).
* `m[k] = v` on the key-set model is `mapInsert`; on the association-list
  model it is `mapStore` (replace the value if the key is present, append
  otherwise).
* The hash-identity variant calls a fallible `Hash() (uint64, error)`;
  a failure is turned into a Go `panic` (`mushHash`).  Operations of that
  variant are therefore modelled in the `Except ε` monad: `Except.error`
  is the propagated panic.  None of the Go signatures has a value-level
  error result, and nothing recovers, so an `Except.error` outcome models
  abrupt termination of the whole operation.
* Locking (`sync.RWMutex`, the `rwLocker` downcast in `IsEqual`) has no
  effect on the sequential semantics modelled here and is dropped.
-/

/-- `s.m[item] = null{}` — storing a key into a Go `map[T]struct{}`:
the key set gains `k` (appended in iteration order) unless already present. -/
def mapInsert {T : Type} [DecidableEq T] (k : T) (l : List T) : List T :=
  if k ∈ l then l else l ++ [k]

/-- `delete(s.m, k)` — removing a key from a Go `map[T]struct{}`. -/
def mapDelete {T : Type} [DecidableEq T] (k : T) (l : List T) : List T :=
  l.filter (fun x => decide (x ≠ k))

namespace set

variable {T : Type} [DecidableEq T]

/-- `set.Add` (set_nots.go): `for _, item := range items { s.m[item] = null{} }`. -/
def Add (s : List T) (items : List T) : List T :=
  items.foldl (fun s item => mapInsert item s) s

/-- `set.Remove` (set_nots.go): `for _, item := range items { delete(s.m, item) }`. -/
def Remove (s : List T) (items : List T) : List T :=
  items.foldl (fun s item => mapDelete item s) s

/-- `set.Pop` (set_nots.go): iterate the map; on the first key, delete it and
return `(item, true)`; on an empty map return the zero value and `false`.
The result is `(returned item, found flag, state of the map afterwards)`. -/
def Pop [Inhabited T] (s : List T) : T × Bool × List T :=
  match s with
  | [] => (default, false, [])
  | item :: _ => (item, true, mapDelete item s)

/-- Iterated `Pop`, keeping only the evolving state (used to express the
"popping n times drains the set" property). -/
def popN [Inhabited T] : List T → Nat → List T
  | s, 0 => s
  | s, n + 1 => popN (Pop s).2.2 n

/-- `set.Has` (set_nots.go): `false` on an empty argument list, otherwise the
loop returns `false` at the first absent item and `true` after the loop. -/
def Has (s : List T) (items : List T) : Bool :=
  if items.isEmpty then false
  else items.all (fun item => decide (item ∈ s))

/-- `set.Size` (set_nots.go): `len(s.m)`. -/
def Size (s : List T) : Nat := s.length

/-- `set.Each` (set_nots.go): visit every element, stopping early (result
`false`) as soon as the closure returns `false`; `true` when all visited. -/
def Each (s : List T) (f : T → Bool) : Bool := s.all f

/-- `set.IsEqual` (set_nots.go): `false` on a size mismatch, otherwise the
`Each` traversal of `t` with the membership closure (the final value of the
captured `equal` variable). -/
def IsEqual (s t : List T) : Bool :=
  if s.length = t.length then Each t (fun item => decide (item ∈ s)) else false

/-- `set.IsSubset` (set_nots.go): `t.Each` with the membership-in-`s` closure. -/
def IsSubset (s t : List T) : Bool :=
  Each t (fun item => decide (item ∈ s))

/-- `set.IsSuperset` (set_nots.go): `return t.IsSubset(s)`. -/
def IsSuperset (s t : List T) : Bool := IsSubset t s

/-- `set.Copy` (set_nots.go): `u := newNonTS()` then `u.Add(item)` for every
element of `s` in iteration order. -/
def Copy (s : List T) : List T :=
  s.foldl (fun u item => Add u [item]) []

/-- `set.Merge` (set_nots.go): `t.Each` storing every element into `s.m`. -/
def Merge (s : List T) (t : List T) : List T :=
  t.foldl (fun s item => mapInsert item s) s

/-- `set.Separate` (set_nots.go): `s.Remove(t.List()...)`. -/
def Separate (s : List T) (t : List T) : List T := Remove s t

/-- `set.Clear` (set_nots.go): pointer receiver, `s.m = make(map[T]struct{})`
— the caller's set really is emptied (contrast with `setAny.Clear`). -/
def Clear (_s : List T) : List T := []

end set

namespace setm

variable {T : Type} [DecidableEq T]

/-- `setm.Add` (set_ts.go): after the empty-arguments early return it calls
`s.set.Add()` — the embedded set's `Add` with NO arguments (the `items` are
not forwarded), so the body adds nothing. -/
def Add (s : List T) (items : List T) : List T :=
  if items.isEmpty then s else set.Add s []

/-- `setm.Remove` (set_ts.go): after the empty-arguments early return it calls
`s.set.Remove()` — again with NO arguments, so the body removes nothing. -/
def Remove (s : List T) (items : List T) : List T :=
  if items.isEmpty then s else set.Remove s []

/-- `setm.Has` (set_ts.go): `false` on an empty argument list; otherwise the
loop breaks at the first absent item, leaving `has = false`, and leaves
`has = true` when every item is present. -/
def Has (s : List T) (items : List T) : Bool :=
  if items.isEmpty then false else items.all (fun item => decide (item ∈ s))

/-- `setm.Size` (set_ts.go): `len(s.m)` under the read lock. -/
def Size (s : List T) : Nat := s.length

/-- `setm.IsEqual` (set_ts.go): same body as `set.IsEqual`, under locks. -/
def IsEqual (s t : List T) : Bool :=
  if s.length = t.length then set.Each t (fun item => decide (item ∈ s)) else false

/-- `setm.Copy` (set_ts.go): `u := newTS()` then `u.Add(item)` for every
element of `s` — where `u.Add` is the argument-dropping `setm.Add`. -/
def Copy (s : List T) : List T :=
  s.foldl (fun u item => Add u [item]) []

/-- `setm.Merge` (set_ts.go): `t.Each` storing every element into `s.m`
directly (not via `Add`), under the write lock. -/
def Merge (s : List T) (t : List T) : List T :=
  t.foldl (fun s item => mapInsert item s) s

end setm

namespace setAny

variable {T : Type} {ε : Type}

/-- The state of a `setAny[T]`: the Go `map[uint64]T` as an association list
from hash to stored element. -/
abbrev State (T : Type) := List (Nat × T)

/-- `mushHash` (set_hash.go): call `item.Hash()` and `panic(err)` on error.
In the `Except` model the panic is exactly the propagated `Except.error`. -/
def mushHash (hash : T → Except ε Nat) (item : T) : Except ε Nat := hash item

/-- `s[h] = item` — storing into the Go `map[uint64]T`: replace the value at
an existing key, append the pair otherwise. -/
def mapStore [DecidableEq T] (h : Nat) (item : T) (s : State T) : State T :=
  if (s.lookup h).isSome then s.map (fun p => if p.1 = h then (h, item) else p)
  else s ++ [(h, item)]

/-- Loop body of `setAny.Add` (set_hash.go): hash each item (panicking on
error, exactly as `mushHash` does) and store it under its hash. -/
def addAux [DecidableEq T] (hash : T → Except ε Nat) : State T → List T → Except ε (State T)
  | s, [] => Except.ok s
  | s, item :: rest => do
      let h ← hash item
      addAux hash (mapStore h item s) rest

/-- `setAny.Add` (set_hash.go). -/
def Add [DecidableEq T] (hash : T → Except ε Nat) (s : State T) (items : List T) :
    Except ε (State T) :=
  addAux hash s items

/-- Loop body of `setAny.Remove` (set_hash.go): `delete(s, mushHash(item))`. -/
def removeAux [DecidableEq T] (hash : T → Except ε Nat) : State T → List T → Except ε (State T)
  | s, [] => Except.ok s
  | s, item :: rest => do
      let h ← mushHash hash item
      removeAux hash (s.filter (fun p => decide (p.1 ≠ h))) rest

/-- `setAny.Remove` (set_hash.go). -/
def Remove [DecidableEq T] (hash : T → Except ε Nat) (s : State T) (items : List T) :
    Except ε (State T) :=
  removeAux hash s items

/-- `setAny.Pop` (set_hash.go): iterate the map; on the first entry, schedule
`delete(s, h)` (a `defer`, which runs before the caller resumes) and return
`(item, true)`; the zero value and `false` on an empty map. -/
def Pop [DecidableEq T] [Inhabited T] (s : State T) : T × Bool × State T :=
  match s with
  | [] => (default, false, [])
  | (h, item) :: _ => (item, true, s.filter (fun p => decide (p.1 ≠ h)))

/-- Iterated `setAny.Pop`, keeping only the evolving state. -/
def popN [DecidableEq T] [Inhabited T] : State T → Nat → State T
  | s, 0 => s
  | s, n + 1 => popN (Pop s).2.2 n

/-- Loop body of `setAny.Has` (set_hash.go): return `false` at the first item
whose hash is not a key of `s`, hashing via `mushHash`. -/
def hasAux [DecidableEq T] (hash : T → Except ε Nat) (s : State T) : List T → Except ε Bool
  | [] => Except.ok true
  | item :: rest => do
      let h ← mushHash hash item
      if (s.lookup h).isSome then hasAux hash s rest else Except.ok false

/-- `setAny.Has` (set_hash.go): `false` on an empty argument list, otherwise
the membership loop. -/
def Has [DecidableEq T] (hash : T → Except ε Nat) (s : State T) (items : List T) :
    Except ε Bool :=
  if items.isEmpty then Except.ok false else hasAux hash s items

/-- `setAny.Size` (set_hash.go): `len(s)`. -/
def Size (s : State T) : Nat := s.length

/-- `setAny.Clear` (set_hash.go): `func (s setAny[T]) Clear() { s = make(map[uint64]T) }`.
The receiver is a VALUE (a copy of the map header); the body only rebinds the
local `s` to a fresh empty map and performs no store or delete through the
shared map object, so the caller-visible mapping is unchanged: the observable
effect of the call is the identity on the set's state. -/
def Clear (s : State T) : State T := s

/-- `t.Each` traversal used by `setAny.IsEqual`/`IsSubset` (set_hash.go):
visit the stored elements of `t` in iteration order, hashing each via
`mushHash` and stopping with `false` at the first hash not present in `s`. -/
def subsetAux [DecidableEq T] (hash : T → Except ε Nat) (s : State T) : State T → Except ε Bool
  | [] => Except.ok true
  | (_, item) :: rest => do
      let h ← mushHash hash item
      if (s.lookup h).isSome then subsetAux hash s rest else Except.ok false

/-- `setAny.IsSubset` (set_hash.go): `t.Each` with the hash-membership closure. -/
def IsSubset [DecidableEq T] (hash : T → Except ε Nat) (s t : State T) : Except ε Bool :=
  subsetAux hash s t

/-- `setAny.IsSuperset` (set_hash.go): `return t.IsSubset(s)`. -/
def IsSuperset [DecidableEq T] (hash : T → Except ε Nat) (s t : State T) : Except ε Bool :=
  IsSubset hash t s

/-- `setAny.IsEqual` (set_hash.go): `false` on a size mismatch, otherwise the
`t.Each` hash-membership traversal. -/
def IsEqual [DecidableEq T] (hash : T → Except ε Nat) (s t : State T) : Except ε Bool :=
  if s.length = t.length then subsetAux hash s t else Except.ok false

/-- `setAny.List` (set_hash.go): the stored elements in iteration order. -/
def toList (s : State T) : List T := s.map Prod.snd

/-- `setAny.Merge` (set_hash.go): `t.Each` storing `s[mushHash(item)] = item`
for every stored element of `t` — the same hash-then-store loop as `Add`
applied to `t.List()`. -/
def Merge [DecidableEq T] (hash : T → Except ε Nat) (s t : State T) : Except ε (State T) :=
  addAux hash s (toList t)

/-- `setAny.Separate` (set_hash.go): `s.Remove(t.List()...)`. -/
def Separate [DecidableEq T] (hash : T → Except ε Nat) (s t : State T) : Except ε (State T) :=
  Remove hash s (toList t)

end setAny

/-- A total (never-failing) `Hash()` implementation built from a pure hash
function — the well-behaved instantiation of the `Hashable` interface. -/
def totalHash (ε : Type) {T : Type} (hf : T → Nat) : T → Except ε Nat :=
  fun x => Except.ok (hf x)

/-- A concrete `Hashable` instantiation whose `Hash()` fails on `0` — used to
exercise the hash-failure path. -/
def badHash : Nat → Except String Nat :=
  fun x => if x = 0 then Except.error "unhashable" else Except.ok x

/-- The method table of the Go interface `Set[T]` (set.go), restricted to the
methods the set-algebra functions use.  `State` is the concrete variant's
state, `elems` its `Each`/`List` iteration order. -/
structure SetOps (T : Type) where
  State : Type
  copy : State → State
  add : State → List T → State
  remove : State → List T → State
  has : State → List T → Bool
  elems : State → List T

/-- `Union` (set.go, package-level): `u := set1.Copy()`, then `u.Add(item)` for
every element produced by `set2.Each` and by each further set's `Each`. -/
def set.Union {T : Type} (I : SetOps T) (set1 set2 : I.State) (sets : List I.State) : I.State :=
  let u := I.copy set1
  let u := (I.elems set2).foldl (fun u item => I.add u [item]) u
  sets.foldl (fun u st => (I.elems st).foldl (fun u item => I.add u [item]) u) u

/-- `Intersection` (set.go, package-level): build `all` and `result` as the
union of every input, then for every element of `all` remove it from `result`
if it is absent from `set1`, from `set2`, or from any of the further sets. -/
def set.Intersection {T : Type} (I : SetOps T) (set1 set2 : I.State) (sets : List I.State) :
    I.State :=
  let all := set.Union I set1 set2 sets
  let result := set.Union I set1 set2 sets
  (I.elems all).foldl
    (fun result item =>
      let result :=
        if !(I.has set1 [item]) || !(I.has set2 [item]) then I.remove result [item]
        else result
      sets.foldl
        (fun result st => if !(I.has st [item]) then I.remove result [item] else result)
        result)
    result

/-- The non-synchronized variant's method table. -/
abbrev setOps (T : Type) [DecidableEq T] : SetOps T :=
  ⟨List T, set.Copy, set.Add, set.Remove, set.Has, id⟩

/-- The synchronized variant's method table. -/
abbrev setmOps (T : Type) [DecidableEq T] : SetOps T :=
  ⟨List T, setm.Copy, setm.Add, setm.Remove, setm.Has, id⟩

/-! ### Helper lemmas -/

/-- Bind on a successful `Except` computation. -/
theorem exceptBind_ok {ε α β : Type} (a : α) (f : α → Except ε β) :
    (Except.ok a : Except ε α) >>= f = f a := rfl

/-- Bind on a failed `Except` computation propagates the failure. -/
theorem exceptBind_error {ε α β : Type} (e : ε) (f : α → Except ε β) :
    (Except.error e : Except ε α) >>= f = Except.error e := rfl

/-- Deleting an absent key leaves a key list unchanged. -/
theorem filterNe_eq_self {T : Type} [DecidableEq T] (l : List T) (x : T) (hx : x ∉ l) :
    l.filter (fun y => decide (y ≠ x)) = l := by
  refine List.filter_eq_self.2 ?_
  intro a ha
  simp only [decide_eq_true_eq]
  exact fun h => hx (h ▸ ha)

/-- Deleting an absent hash key leaves an association list unchanged. -/
theorem filterKeyNe_eq_self {T : Type} (l : List (Nat × T)) (h : Nat)
    (hx : h ∉ l.map Prod.fst) :
    l.filter (fun p => decide (p.1 ≠ h)) = l := by
  refine List.filter_eq_self.2 ?_
  intro p hp
  simp only [decide_eq_true_eq]
  exact fun hph => hx (List.mem_map.2 ⟨p, hp, hph⟩)

/-- State left by `set.Pop` on a duplicate-free nonempty set: the tail. -/
theorem set_pop_state_cons {T : Type} [DecidableEq T] [Inhabited T] (x : T) (xs : List T)
    (hx : x ∉ xs) : (set.Pop (x :: xs)).2.2 = xs := by
  show mapDelete x (x :: xs) = xs
  simp [mapDelete]
  intro a ha h
  exact hx (h ▸ ha)

/-- State left by `setAny.Pop` on a key-duplicate-free nonempty set: the tail. -/
theorem any_pop_state_cons {T : Type} [DecidableEq T] [Inhabited T] (h : Nat) (it : T)
    (ra : setAny.State T) (hk : h ∉ ra.map Prod.fst) :
    (setAny.Pop ((h, it) :: ra)).2.2 = ra := by
  show ((h, it) :: ra).filter (fun p => decide (p.1 ≠ h)) = ra
  simp
  intro a b hab ha
  exact hk (List.mem_map.2 ⟨(a, b), hab, ha⟩)

/-- Popping a duplicate-free set as many times as it has elements drains it. -/
theorem set_popN_drain {T : Type} [DecidableEq T] [Inhabited T] :
    ∀ s : List T, s.Nodup → set.popN s s.length = []
  | [], _ => rfl
  | x :: xs, hnd => by
      have hx : x ∉ xs := (List.nodup_cons.1 hnd).1
      show set.popN (set.Pop (x :: xs)).2.2 xs.length = []
      rw [set_pop_state_cons x xs hx]
      exact set_popN_drain xs (List.nodup_cons.1 hnd).2

/-- Popping a key-duplicate-free hash set as many times as it has entries
drains it. -/
theorem any_popN_drain {T : Type} [DecidableEq T] [Inhabited T] :
    ∀ s : setAny.State T, (s.map Prod.fst).Nodup → setAny.popN s s.length = []
  | [], _ => rfl
  | (h, it) :: ra, hk => by
      have hk' : (h :: ra.map Prod.fst).Nodup := by simpa using hk
      show setAny.popN (setAny.Pop ((h, it) :: ra)).2.2 ra.length = []
      rw [any_pop_state_cons h it ra (List.nodup_cons.1 hk').1]
      exact any_popN_drain ra (List.nodup_cons.1 hk').2

/-- With a total hash, the `setAny.Has` loop computes the conjunctive
hash-membership check. -/
theorem hasAux_totalHash {T : Type} [DecidableEq T] (ε : Type) (hf : T → Nat)
    (s : setAny.State T) :
    ∀ items : List T,
      setAny.hasAux (totalHash ε hf) s items
        = Except.ok (items.all fun it => (s.lookup (hf it)).isSome)
  | [] => rfl
  | it :: rest => by
      have h1 : setAny.hasAux (totalHash ε hf) s (it :: rest)
          = (if (s.lookup (hf it)).isSome then setAny.hasAux (totalHash ε hf) s rest
             else Except.ok false) := rfl
      rw [h1]
      cases hb : (s.lookup (hf it)).isSome
      · simp [hb]
      · simp [hb, hasAux_totalHash ε hf s rest]

/-- With a total hash, the `setAny` subset traversal computes the conjunctive
hash-membership check over the argument's entries. -/
theorem subsetAux_totalHash {T : Type} [DecidableEq T] (ε : Type) (hf : T → Nat)
    (s : setAny.State T) :
    ∀ t : setAny.State T,
      setAny.subsetAux (totalHash ε hf) s t
        = Except.ok (t.all fun p => (s.lookup (hf p.2)).isSome)
  | [] => rfl
  | (h0, it) :: rest => by
      have h1 : setAny.subsetAux (totalHash ε hf) s ((h0, it) :: rest)
          = (if (s.lookup (hf it)).isSome then setAny.subsetAux (totalHash ε hf) s rest
             else Except.ok false) := rfl
      rw [h1]
      cases hb : (s.lookup (hf it)).isSome
      · simp [hb]
      · simp [hb, subsetAux_totalHash ε hf s rest]

/-- A failing hash anywhere in the argument list makes the `setAny.Add` loop
propagate the failure (it can never return a state). -/
theorem addAux_stuck {T ε : Type} [DecidableEq T] (hash : T → Except ε Nat) (item : T) (e : ε)
    (hbad : hash item = Except.error e) :
    ∀ (pre : List T) (s : setAny.State T) (post : List T),
      ∃ e2, setAny.addAux hash s (pre ++ item :: post) = Except.error e2
  | [], s, post => ⟨e, by
      show (hash item >>= fun h => setAny.addAux hash (setAny.mapStore h item s) post)
          = Except.error e
      rw [hbad, exceptBind_error]⟩
  | q :: qs, s, post => by
      cases hq : hash q with
      | error e2 =>
          exact ⟨e2, by
            show (hash q >>= fun h => setAny.addAux hash (setAny.mapStore h q s) (qs ++ item :: post))
                = Except.error e2
            rw [hq, exceptBind_error]⟩
      | ok h =>
          obtain ⟨e2, he⟩ := addAux_stuck hash item e hbad qs (setAny.mapStore h q s) post
          exact ⟨e2, by
            show (hash q >>= fun hh => setAny.addAux hash (setAny.mapStore hh q s) (qs ++ item :: post))
                = Except.error e2
            rw [hq, exceptBind_ok]
            exact he⟩

/-- A failing hash anywhere in the argument list makes the `setAny.Remove`
loop propagate the failure. -/
theorem removeAux_stuck {T ε : Type} [DecidableEq T] (hash : T → Except ε Nat) (item : T) (e : ε)
    (hbad : hash item = Except.error e) :
    ∀ (pre : List T) (s : setAny.State T) (post : List T),
      ∃ e2, setAny.removeAux hash s (pre ++ item :: post) = Except.error e2
  | [], s, post => ⟨e, by
      show (hash item >>= fun h =>
          setAny.removeAux hash (s.filter (fun p => decide (p.1 ≠ h))) post) = Except.error e
      rw [hbad, exceptBind_error]⟩
  | q :: qs, s, post => by
      cases hq : hash q with
      | error e2 =>
          exact ⟨e2, by
            show (hash q >>= fun h =>
                setAny.removeAux hash (s.filter (fun p => decide (p.1 ≠ h))) (qs ++ item :: post))
                = Except.error e2
            rw [hq, exceptBind_error]⟩
      | ok h =>
          obtain ⟨e2, he⟩ :=
            removeAux_stuck hash item e hbad qs (s.filter (fun p => decide (p.1 ≠ h))) post
          exact ⟨e2, by
            show (hash q >>= fun hh =>
                setAny.removeAux hash (s.filter (fun p => decide (p.1 ≠ hh))) (qs ++ item :: post))
                = Except.error e2
            rw [hq, exceptBind_ok]
            exact he⟩

/-! ### Claim theorems -/

/-- Claim C1.  The claim states that after `s.Add(e)` the element is present
and the size grew by at most one, for every variant.  It fails on the
synchronized variant: `setm.Add` delegates to the embedded set's `Add` with
no arguments, so nothing is inserted — at the failing input (empty
synchronized set, element 1) `Has(1)` is still `false` and the size still 0,
while the non-synchronized variant behaves as claimed at the same input. -/
theorem claim_C1_ts_add_dropped :
    set.Has (set.Add ([] : List Nat) [1]) [1] = true ∧
    set.Size (set.Add ([] : List Nat) [1]) = 1 ∧
    setm.Has (setm.Add ([] : List Nat) [1]) [1] = false ∧
    setm.Size (setm.Add ([] : List Nat) [1]) = 0 := by decide

/-- Claim C2.  The claim states that `Copy` returns an independent set with
exactly the receiver's elements.  It fails on the synchronized variant:
`setm.Copy` populates the fresh set through the argument-dropping `setm.Add`,
so the copy of a synchronized set holding 1 (built via `Merge`, which stores
directly) is empty, while the non-synchronized `Copy` is exact. -/
theorem claim_C2_ts_copy_empty :
    set.Copy ([1] : List Nat) = [1] ∧
    setm.Has (setm.Merge ([] : List Nat) [1]) [1] = true ∧
    setm.Copy (setm.Merge ([] : List Nat) [1]) = [] ∧
    setm.Has (setm.Copy (setm.Merge ([] : List Nat) [1])) [1] = false := by decide

/-- Claim C3.  The claim states that after `s.Remove(e)` the element is
absent, and removing a non-member is a silent no-op.  It fails on the
synchronized variant: `setm.Remove` delegates with no arguments, so a
synchronized set holding 1 still reports `Has(1) = true` after `Remove(1)`;
the non-synchronized variant behaves as claimed. -/
theorem claim_C3_ts_remove_dropped :
    set.Has (set.Remove ([1] : List Nat) [1]) [1] = false ∧
    set.Remove ([1] : List Nat) [2] = [1] ∧
    setm.Has (setm.Remove (setm.Merge ([] : List Nat) [1]) [1]) [1] = true := by decide

/-- Claim C4: `Has` with zero items returns `false` on every variant; with
one or more items it returns `true` iff every given item is a member
(conjunctive check) — for the hash-identity variant membership of an item is
presence of its hash among the keys. -/
theorem claim_C4_has_conjunctive {T : Type} [DecidableEq T] (ε : Type) (hf : T → Nat)
    (s : List T) (sa : setAny.State T) (items : List T) :
    set.Has s ([] : List T) = false ∧
    (set.Has s items = true ↔ items ≠ [] ∧ ∀ x ∈ items, x ∈ s) ∧
    setm.Has s ([] : List T) = false ∧
    (setm.Has s items = true ↔ items ≠ [] ∧ ∀ x ∈ items, x ∈ s) ∧
    setAny.Has (totalHash ε hf) sa ([] : List T) = Except.ok false ∧
    (setAny.Has (totalHash ε hf) sa items = Except.ok true ↔
      items ≠ [] ∧ ∀ x ∈ items, (sa.lookup (hf x)).isSome = true) := by
  refine ⟨rfl, ?_, rfl, ?_, rfl, ?_⟩
  · cases items with
    | nil => simp [set.Has]
    | cons a as => simp [set.Has, List.all_eq_true]
  · cases items with
    | nil => simp [setm.Has]
    | cons a as => simp [setm.Has, List.all_eq_true]
  · cases items with
    | nil => simp [setAny.Has]
    | cons a as =>
        have h1 : setAny.Has (totalHash ε hf) sa (a :: as)
            = setAny.hasAux (totalHash ε hf) sa (a :: as) := rfl
        rw [h1, hasAux_totalHash ε hf sa]
        simp [List.all_eq_true]

/-- Claim C5: `Pop` on a nonempty set removes exactly one element and returns
it with the `true` flag (size drops by one, the remaining members are the old
ones minus the popped one); on an empty set it returns the zero value and
`false`; popping an n-element set n times drains it and the (n+1)-th pop
reports `false` — shown for the storage core and the hash-identity variant,
on duplicate-free states (the only reachable ones). -/
theorem claim_C5_pop {T : Type} [DecidableEq T] [Inhabited T]
    (x : T) (xs : List T) (hnd : (x :: xs).Nodup)
    (h : Nat) (it : T) (ra : setAny.State T)
    (hka : (((h, it) :: ra).map Prod.fst).Nodup) :
    set.Pop (x :: xs) = (x, true, xs) ∧
    x ∉ xs ∧
    xs.length = (x :: xs).length - 1 ∧
    (∀ y, y ∈ x :: xs ↔ y = x ∨ y ∈ xs) ∧
    set.Pop ([] : List T) = (default, false, []) ∧
    set.popN (x :: xs) (x :: xs).length = [] ∧
    set.Pop (set.popN (x :: xs) (x :: xs).length) = (default, false, []) ∧
    setAny.Pop ((h, it) :: ra) = (it, true, ra) ∧
    ra.length = ((h, it) :: ra).length - 1 ∧
    setAny.Pop ([] : setAny.State T) = (default, false, []) ∧
    setAny.popN ((h, it) :: ra) ((h, it) :: ra).length = [] ∧
    setAny.Pop (setAny.popN ((h, it) :: ra) ((h, it) :: ra).length) = (default, false, []) := by
  have hx : x ∉ xs := (List.nodup_cons.1 hnd).1
  have hk' : (h :: ra.map Prod.fst).Nodup := by simpa using hka
  have hdrain := set_popN_drain (x :: xs) hnd
  have hadrain := any_popN_drain ((h, it) :: ra) hka
  refine ⟨?_, hx, by simp, fun y => List.mem_cons, rfl, hdrain, by rw [hdrain]; rfl,
    ?_, by simp, rfl, hadrain, by rw [hadrain]; rfl⟩
  · have h1 : mapDelete x (x :: xs) = xs := set_pop_state_cons x xs hx
    show (x, true, mapDelete x (x :: xs)) = (x, true, xs)
    rw [h1]
  · have h2 : ((h, it) :: ra).filter (fun p => decide (p.1 ≠ h)) = ra :=
      any_pop_state_cons h it ra (List.nodup_cons.1 hk').1
    show (it, true, ((h, it) :: ra).filter (fun p => decide (p.1 ≠ h))) = (it, true, ra)
    rw [h2]

/-- Witness for C5 at the concrete sets {1,2} and {7,9} (hashes 10, 20). -/
theorem claim_C5_pop_witness :
    ([1, 2] : List Nat).Nodup ∧
    (([(10, 7), (20, 9)] : setAny.State Nat).map Prod.fst).Nodup ∧
    (set.Pop ([1, 2] : List Nat) = (1, true, [2]) ∧
      (1 : Nat) ∉ ([2] : List Nat) ∧
      ([2] : List Nat).length = ([1, 2] : List Nat).length - 1 ∧
      (∀ y : Nat, y ∈ ([1, 2] : List Nat) ↔ y = 1 ∨ y ∈ ([2] : List Nat)) ∧
      set.Pop ([] : List Nat) = (default, false, []) ∧
      set.popN ([1, 2] : List Nat) ([1, 2] : List Nat).length = [] ∧
      set.Pop (set.popN ([1, 2] : List Nat) ([1, 2] : List Nat).length) = (default, false, []) ∧
      setAny.Pop ([(10, 7), (20, 9)] : setAny.State Nat) = (7, true, [(20, 9)]) ∧
      ([(20, 9)] : setAny.State Nat).length
        = ([(10, 7), (20, 9)] : setAny.State Nat).length - 1 ∧
      setAny.Pop ([] : setAny.State Nat) = (default, false, []) ∧
      setAny.popN ([(10, 7), (20, 9)] : setAny.State Nat)
        ([(10, 7), (20, 9)] : setAny.State Nat).length = [] ∧
      setAny.Pop (setAny.popN ([(10, 7), (20, 9)] : setAny.State Nat)
        ([(10, 7), (20, 9)] : setAny.State Nat).length) = (default, false, [])) :=
  ⟨by decide, by decide, claim_C5_pop 1 [2] (by decide) 10 7 [(20, 9)] (by decide)⟩

/-- Claim C6: `IsEqual` returns `true` iff the sizes match and every element
of the argument is present in the receiver — for the storage core, the
synchronized variant (identical body) and the hash-identity variant (where
presence is hash-key membership). -/
theorem claim_C6_isequal {T : Type} [DecidableEq T] (ε : Type) (hf : T → Nat)
    (s t : List T) (sa ta : setAny.State T) :
    (set.IsEqual s t = true ↔ set.Size s = set.Size t ∧ ∀ x ∈ t, x ∈ s) ∧
    setm.IsEqual s t = set.IsEqual s t ∧
    (setAny.IsEqual (totalHash ε hf) sa ta = Except.ok true ↔
      setAny.Size sa = setAny.Size ta ∧
      ∀ x ∈ setAny.toList ta, (sa.lookup (hf x)).isSome = true) := by
  refine ⟨?_, rfl, ?_⟩
  · by_cases hl : s.length = t.length
    · simp [set.IsEqual, set.Each, set.Size, hl, List.all_eq_true]
    · simp [set.IsEqual, set.Size, hl]
  · by_cases hl : sa.length = ta.length
    · have h1 : setAny.IsEqual (totalHash ε hf) sa ta
          = setAny.subsetAux (totalHash ε hf) sa ta := by
        simp [setAny.IsEqual, hl]
      rw [h1, subsetAux_totalHash ε hf sa]
      simp [setAny.Size, hl, List.all_eq_true, setAny.toList]
      constructor
      · intro H i n hn
        exact H n i hn
      · intro H a b hab
        exact H b a hab
    · simp [setAny.IsEqual, setAny.Size, hl]

/-- Claim C7: `x.IsSubset(y)` coincides with `y.IsSuperset(x)` (the latter
delegates with the roles swapped), and `s.IsSubset(t)` is `true` iff every
element of `t` is present in `s` (it tests t ⊆ s, the method being invoked on
the would-be superset) — for the storage core and hash-identity variants. -/
theorem claim_C7_subset_superset {T : Type} [DecidableEq T] (ε : Type) (hf : T → Nat)
    (x y s t : List T) (xa ya sa ta : setAny.State T) :
    set.IsSubset x y = set.IsSuperset y x ∧
    (set.IsSubset s t = true ↔ ∀ i ∈ t, i ∈ s) ∧
    setAny.IsSubset (totalHash ε hf) xa ya = setAny.IsSuperset (totalHash ε hf) ya xa ∧
    (setAny.IsSubset (totalHash ε hf) sa ta = Except.ok true ↔
      ∀ i ∈ setAny.toList ta, (sa.lookup (hf i)).isSome = true) := by
  refine ⟨rfl, ?_, rfl, ?_⟩
  · simp [set.IsSubset, set.Each, List.all_eq_true]
  · have h1 : setAny.IsSubset (totalHash ε hf) sa ta
        = setAny.subsetAux (totalHash ε hf) sa ta := rfl
    rw [h1, subsetAux_totalHash ε hf sa]
    simp [List.all_eq_true, setAny.toList]
    constructor
    · intro H i n hn
      exact H n i hn
    · intro H a b hab
      exact H b a hab

/-- Claim C8.  The claim states that `Intersection` keeps exactly the
elements common to every input, with {1,2,3} ∩ {2,3,4} ∩ {3,4,5} = {3} as
example.  It holds when the inputs are non-synchronized sets, but fails when
they are synchronized sets: `Union` builds the result through `Copy`/`Add` of
the synchronized variant, both of which drop elements, so the intersection of
the synchronized inputs comes out empty. -/
theorem claim_C8_intersection :
    set.Intersection (setOps Nat) [1, 2, 3] [2, 3, 4] [[3, 4, 5]] = [3] ∧
    set.Intersection (setmOps Nat) [1, 2, 3] [2, 3, 4] [[3, 4, 5]] = [] := by decide

/-- Claim C9: in the hash-identity variant every operation that hashes an
element — `Add`, `Remove`, `Has`, `IsEqual`, `IsSubset`, `Merge`, `Separate`
— aborts (the Go panic, modelled as `Except.error`) when that element's
`Hash()` returns an error; no operation catches the failure or returns a
partial result. -/
theorem claim_C9_hash_failure {T ε : Type} [DecidableEq T]
    (hash : T → Except ε Nat) (item : T) (e : ε)
    (hbad : hash item = Except.error e) :
    (∀ (s : setAny.State T) (pre post : List T),
      ∃ e2, setAny.Add hash s (pre ++ item :: post) = Except.error e2) ∧
    (∀ (s : setAny.State T) (pre post : List T),
      ∃ e2, setAny.Remove hash s (pre ++ item :: post) = Except.error e2) ∧
    (∀ (s : setAny.State T) (rest : List T),
      setAny.Has hash s (item :: rest) = Except.error e) ∧
    (∀ (s : setAny.State T) (h0 : Nat) (rest : setAny.State T),
      setAny.IsSubset hash s ((h0, item) :: rest) = Except.error e) ∧
    (∀ (s : setAny.State T) (h0 : Nat) (rest : setAny.State T),
      s.length = rest.length + 1 →
      setAny.IsEqual hash s ((h0, item) :: rest) = Except.error e) ∧
    (∀ (s : setAny.State T) (h0 : Nat) (pre post : setAny.State T),
      ∃ e2, setAny.Merge hash s (pre ++ (h0, item) :: post) = Except.error e2) ∧
    (∀ (s : setAny.State T) (h0 : Nat) (pre post : setAny.State T),
      ∃ e2, setAny.Separate hash s (pre ++ (h0, item) :: post) = Except.error e2) := by
  refine ⟨?_, ?_, ?_, ?_, ?_, ?_, ?_⟩
  · intro s pre post
    exact addAux_stuck hash item e hbad pre s post
  · intro s pre post
    exact removeAux_stuck hash item e hbad pre s post
  · intro s rest
    show (hash item >>= fun hh =>
        if (s.lookup hh).isSome then setAny.hasAux hash s rest else Except.ok false)
      = Except.error e
    rw [hbad, exceptBind_error]
  · intro s h0 rest
    show (hash item >>= fun hh =>
        if (s.lookup hh).isSome then setAny.subsetAux hash s rest else Except.ok false)
      = Except.error e
    rw [hbad, exceptBind_error]
  · intro s h0 rest hlen
    have h1 : setAny.IsEqual hash s ((h0, item) :: rest)
        = setAny.subsetAux hash s ((h0, item) :: rest) := by
      simp [setAny.IsEqual, hlen]
    rw [h1]
    show (hash item >>= fun hh =>
        if (s.lookup hh).isSome then setAny.subsetAux hash s rest else Except.ok false)
      = Except.error e
    rw [hbad, exceptBind_error]
  · intro s h0 pre post
    have h1 : setAny.toList (pre ++ (h0, item) :: post)
        = setAny.toList pre ++ item :: setAny.toList post := by
      simp [setAny.toList]
    obtain ⟨e2, he⟩ := addAux_stuck hash item e hbad (setAny.toList pre) s (setAny.toList post)
    exact ⟨e2, by
      show setAny.addAux hash s (setAny.toList (pre ++ (h0, item) :: post)) = Except.error e2
      rw [h1]
      exact he⟩
  · intro s h0 pre post
    have h1 : setAny.toList (pre ++ (h0, item) :: post)
        = setAny.toList pre ++ item :: setAny.toList post := by
      simp [setAny.toList]
    obtain ⟨e2, he⟩ := removeAux_stuck hash item e hbad (setAny.toList pre) s (setAny.toList post)
    exact ⟨e2, by
      show setAny.removeAux hash s (setAny.toList (pre ++ (h0, item) :: post)) = Except.error e2
      rw [h1]
      exact he⟩

/-- Witness for C9: the concrete `badHash` fails on element 0, and each
operation aborts with that failure at a concrete state. -/
theorem claim_C9_hash_failure_witness :
    badHash 0 = Except.error "unhashable" ∧
    (∃ e2, setAny.Add badHash [] ([1] ++ 0 :: []) = Except.error e2) ∧
    (∃ e2, setAny.Remove badHash [(5, 3)] ([1] ++ 0 :: []) = Except.error e2) ∧
    setAny.Has badHash [(5, 3)] (0 :: [1]) = Except.error "unhashable" ∧
    setAny.IsSubset badHash [(5, 3)] ((7, 0) :: [(8, 1)]) = Except.error "unhashable" ∧
    setAny.IsEqual badHash [(5, 3), (6, 4)] ((7, 0) :: [(8, 1)]) = Except.error "unhashable" ∧
    (∃ e2, setAny.Merge badHash [(5, 3)] ([(9, 1)] ++ (7, 0) :: []) = Except.error e2) ∧
    (∃ e2, setAny.Separate badHash [(5, 3)] ([(9, 1)] ++ (7, 0) :: []) = Except.error e2) :=
  ⟨rfl,
   (claim_C9_hash_failure badHash 0 "unhashable" rfl).1 [] [1] [],
   (claim_C9_hash_failure badHash 0 "unhashable" rfl).2.1 [(5, 3)] [1] [],
   (claim_C9_hash_failure badHash 0 "unhashable" rfl).2.2.1 [(5, 3)] [1],
   (claim_C9_hash_failure badHash 0 "unhashable" rfl).2.2.2.1 [(5, 3)] 7 [(8, 1)],
   (claim_C9_hash_failure badHash 0 "unhashable" rfl).2.2.2.2.1 [(5, 3), (6, 4)] 7 [(8, 1)] rfl,
   (claim_C9_hash_failure badHash 0 "unhashable" rfl).2.2.2.2.2.1 [(5, 3)] 7 [(9, 1)] [],
   (claim_C9_hash_failure badHash 0 "unhashable" rfl).2.2.2.2.2.2 [(5, 3)] 7 [(9, 1)] []⟩

/-- Claim C10: `Clear` on the hash-identity set is a no-op at the public
interface — the value receiver's map header is rebound locally, nothing is
deleted through the shared mapping, so size, membership, key lookup and the
stored elements are unchanged. -/
theorem claim_C10_clear_noop {T ε : Type} [DecidableEq T]
    (hash : T → Except ε Nat) (sa : setAny.State T) (items : List T) (h : Nat) :
    setAny.Size (setAny.Clear sa) = setAny.Size sa ∧
    setAny.Has hash (setAny.Clear sa) items = setAny.Has hash sa items ∧
    (setAny.Clear sa).lookup h = sa.lookup h ∧
    setAny.toList (setAny.Clear sa) = setAny.toList sa :=
  ⟨rfl, rfl, rfl, rfl⟩

/-- Witness for C4 at {1,2} (core) and the hash set {1 ↦ stored under 2}. -/
theorem claim_C4_has_conjunctive_witness :
    set.Has ([1, 2] : List Nat) [1] = true ∧
    setAny.Has (totalHash String Nat.succ) ([(2, 1)] : setAny.State Nat) ([] : List Nat)
      = Except.ok false ∧
    setAny.Has (totalHash String Nat.succ) ([(2, 1)] : setAny.State Nat) [1]
      = Except.ok true :=
  ⟨(claim_C4_has_conjunctive String Nat.succ [1, 2] [(2, 1)] [1]).2.1.mpr (by decide),
   (claim_C4_has_conjunctive String Nat.succ [1, 2] [(2, 1)] [1]).2.2.2.2.1,
   (claim_C4_has_conjunctive String Nat.succ [1, 2] [(2, 1)] [1]).2.2.2.2.2.mpr (by decide)⟩

/-- Witness for C6 at {1,2} vs {2,1} and the corresponding hash sets. -/
theorem claim_C6_isequal_witness :
    set.IsEqual ([1, 2] : List Nat) [2, 1] = true ∧
    setAny.IsEqual (totalHash String Nat.succ)
      ([(2, 1), (3, 2)] : setAny.State Nat) [(3, 2), (2, 1)] = Except.ok true :=
  ⟨(claim_C6_isequal String Nat.succ [1, 2] [2, 1] [(2, 1), (3, 2)] [(3, 2), (2, 1)]).1.mpr
      (by decide),
   (claim_C6_isequal String Nat.succ [1, 2] [2, 1] [(2, 1), (3, 2)] [(3, 2), (2, 1)]).2.2.mpr
      (by decide)⟩

/-- Witness for C7 at {1,2} ⊇ {1} and the corresponding hash sets. -/
theorem claim_C7_subset_superset_witness :
    set.IsSubset ([1, 2] : List Nat) [1] = set.IsSuperset ([1] : List Nat) [1, 2] ∧
    set.IsSubset ([1, 2] : List Nat) [1] = true ∧
    setAny.IsSubset (totalHash String Nat.succ)
      ([(2, 1), (3, 2)] : setAny.State Nat) [(2, 1)] = Except.ok true :=
  ⟨(claim_C7_subset_superset String Nat.succ [1, 2] [1] [1, 2] [1]
      [] [] [(2, 1), (3, 2)] [(2, 1)]).1,
   (claim_C7_subset_superset String Nat.succ [1, 2] [1] [1, 2] [1]
      [] [] [(2, 1), (3, 2)] [(2, 1)]).2.1.mpr (by decide),
   (claim_C7_subset_superset String Nat.succ [1, 2] [1] [1, 2] [1]
      [] [] [(2, 1), (3, 2)] [(2, 1)]).2.2.2.mpr (by decide)⟩

/-- Witness for C10 at the hash set {1 stored under key 2}. -/
theorem claim_C10_clear_noop_witness :
    setAny.Size (setAny.Clear ([(2, 1)] : setAny.State Nat))
      = setAny.Size ([(2, 1)] : setAny.State Nat) ∧
    setAny.Has badHash (setAny.Clear ([(2, 1)] : setAny.State Nat)) [1]
      = setAny.Has badHash [(2, 1)] [1] ∧
    (setAny.Clear ([(2, 1)] : setAny.State Nat)).lookup 2
      = ([(2, 1)] : setAny.State Nat).lookup 2 ∧
    setAny.toList (setAny.Clear ([(2, 1)] : setAny.State Nat))
      = setAny.toList ([(2, 1)] : setAny.State Nat) :=
  claim_C10_clear_noop badHash [(2, 1)] [1] 2
